import Mathlib

/-!
Verification of the PTP (ISO 15740) module `ptp.py`: frame codecs built on
the legacy `construct` 2.5 combinators, symbolic code tables, and the
session/transaction state machine of `PTPDevice`.

Shallow-embedding conventions:
* Machine integers are `Nat`; range checks appear exactly where the
  underlying library (`struct.pack` via construct's integer fields)
  range-checks at build time.
* A codec's `build` is a function producing `Option (List Nat)` (a byte
  list, each entry intended `< 256`); `parse` consumes a prefix of a byte
  list.  `none` models a raised exception.
* The endianness selection flags `(_le_, _be_)` of the codec constructors
  are modelled by an `Endian` value for the integer fields together with
  the `swapped` flag of the 32-bit `Parameter` bit field:
  `_le_=True` yields `(little, swapped := true)`, `_be_=True` yields
  `(big, swapped := false)`, and neither flag yields the platform's native
  order with `swapped := false`.  Quantifying over `Endian` and the
  swapped flag therefore covers every constructible selection.
-/

inductive Endian where
  | little
  | big
deriving DecidableEq

/-- Byte images of a 16-bit unsigned integer as laid out by `struct.pack`
(`<H` resp. `>H`), assuming `n < 2^16`. -/
def u16Bytes (e : Endian) (n : Nat) : List Nat :=
  match e with
  | .little => [n % 256, n / 256]
  | .big => [n / 256, n % 256]

/-- Build step of `ULInt16`/`UBInt16`/`UNInt16`: `struct.pack` raises when
the value does not fit in 16 bits. -/
def encodeU16 (e : Endian) (n : Nat) : Option (List Nat) :=
  if n < 65536 then some (u16Bytes e n) else none

/-- Parse step of the 16-bit integer fields: consume two bytes. -/
def parseU16 (e : Endian) : List Nat → Option (Nat × List Nat)
  | b0 :: b1 :: rest =>
      some ((match e with | .little => b0 + 256 * b1 | .big => 256 * b0 + b1), rest)
  | _ => none

/-- Byte images of a 32-bit unsigned integer (`<L` resp. `>L`). -/
def u32Bytes (e : Endian) (n : Nat) : List Nat :=
  match e with
  | .little => [n % 256, n / 256 % 256, n / 65536 % 256, n / 16777216]
  | .big => [n / 16777216, n / 65536 % 256, n / 256 % 256, n % 256]

/-- Build step of `ULInt32`/`UBInt32`/`UNInt32`. -/
def encodeU32 (e : Endian) (n : Nat) : Option (List Nat) :=
  if n < 4294967296 then some (u32Bytes e n) else none

/-- Parse step of the 32-bit integer fields: consume four bytes. -/
def parseU32 (e : Endian) : List Nat → Option (Nat × List Nat)
  | b0 :: b1 :: b2 :: b3 :: rest =>
      some ((match e with
        | .little => b0 + 256 * b1 + 65536 * b2 + 16777216 * b3
        | .big => 16777216 * b0 + 65536 * b1 + 256 * b2 + b3), rest)
  | _ => none

/-- A value carried in a code field: either a symbolic name from a code
table or a raw numeric code (construct `Enum` with `_default_=Pass`). -/
inductive CodeValue where
  | sym (s : String)
  | num (n : Nat)
deriving DecidableEq

/-- A PTP transaction frame (`Container` contents of `Operation`,
`Response` and `Event`, which share the same field names). -/
structure Frame where
  code : CodeValue
  SessionID : Nat
  TransactionID : Nat
  Parameter : List Nat
deriving DecidableEq

/-- The mutable session/transaction state of `PTPDevice`
(class attributes `__session = 0`, `__transaction_id = 0`). -/
structure DevState where
  session : Nat
  transaction_id : Nat
deriving DecidableEq

/-- The `__transaction` property getter: return the current id, increment
the counter, and wrap to 1 once the incremented counter exceeds
`0xFFFFFFFE`. -/
def transactionGet (s : DevState) : Nat × DevState :=
  let current_id := s.transaction_id
  let bumped := s.transaction_id + 1
  let next := if bumped > 0xFFFFFFFE then 1 else bumped
  (current_id, { s with transaction_id := next })

/-- The `__transaction` property setter: only a reset to 0 is allowed;
any nonzero assignment raises `PTPError` (modelled as `none`). -/
def transactionSet (s : DevState) (value : Nat) : Option DevState :=
  if value ≠ 0 then none else some { s with transaction_id := 0 }

/-- A freshly constructed device: `__session = 0`, `__transaction_id = 0`. -/
def freshDev : DevState := { session := 0, transaction_id := 0 }

/-- Device state after `n` calls of the `__transaction` getter from a
fresh device. -/
def devAfter : Nat → DevState
  | 0 => freshDev
  | n + 1 => (transactionGet (devAfter n)).2

/-- Value returned by the `(n+1)`-st call of the `__transaction` getter
starting from a fresh device. -/
def nthTransaction (n : Nat) : Nat := (transactionGet (devAfter n)).1

/-- The `session_id` property getter: expose the internal session counter. -/
def session_id_get (s : DevState) : Nat := s.session

/-- The `session_id` property setter: external modifications are ignored
(the setter body is `pass`). -/
def session_id_set (s : DevState) (_value : Nat) : DevState := s

/-- `open_session`: increment the session counter, reset the transaction
counter through the `__transaction` setter, build the OpenSession
`Container` (the `TransactionID` field reads the `__transaction` getter),
and return the transport's `mesg` response unmodified. -/
def open_session {R : Type} (mesg : Frame → R) (s : DevState) :
    Option (R × DevState) :=
  let s1 : DevState := { s with session := s.session + 1 }
  match transactionSet s1 0 with
  | none => none
  | some s2 =>
    let g := transactionGet s2
    let ptp : Frame :=
      { code := CodeValue.sym "OpenSession",
        SessionID := 0,
        TransactionID := g.1,
        Parameter := [s1.session, 0, 0, 0, 0] }
    some (mesg ptp, g.2)

/-- `close_session`: build the CloseSession `Container` against the current
session and transaction state and return the transport's `mesg` response. -/
def close_session {R : Type} (mesg : Frame → R) (s : DevState) :
    R × DevState :=
  let g := transactionGet s
  let ptp : Frame :=
    { code := CodeValue.sym "CloseSession",
      SessionID := s.session,
      TransactionID := g.1,
      Parameter := [0, 0, 0, 0, 0] }
  (mesg ptp, g.2)

/-- Observable calls made by the `session` context manager. -/
inductive Call where
  | openCall
  | bodyCall
  | closeCall
deriving DecidableEq, BEq

/-- Control flow of the `session` context manager
(`try: open_session(); yield; finally: close_session()` driven by
`@contextmanager`): each of `open_session`, the caller's body and
`close_session` may succeed or raise; the trace records which of them ran,
in order.  If `open_session` raises, the body never runs but the
`finally` clause still executes `close_session`; an exception raised by
`close_session` itself replaces the one in flight (Python `finally`
semantics). -/
def sessionRun {E A : Type} (openR : Except E Unit) (body : Except E A)
    (closeR : Except E Unit) : Except E A × List Call :=
  match openR with
  | .error e =>
    (match closeR with
     | .error e2 => Except.error e2
     | .ok _ => Except.error e,
     [Call.openCall, Call.closeCall])
  | .ok _ =>
    match body with
    | .error e =>
      (match closeR with
       | .error e2 => Except.error e2
       | .ok _ => Except.error e,
       [Call.openCall, Call.bodyCall, Call.closeCall])
    | .ok a =>
      (match closeR with
       | .error e2 => Except.error e2
       | .ok _ => Except.ok a,
       [Call.openCall, Call.bodyCall, Call.closeCall])

theorem succ_mod_spec (k M : Nat) (hM : 0 < M) :
    (k + 1) % M = if k % M + 1 = M then 0 else k % M + 1 := by
  have hdm : M * (k / M) + k % M = k := Nat.div_add_mod k M
  have h1 : k + 1 = M * (k / M) + (k % M + 1) := by omega
  rw [h1, Nat.mul_add_mod]
  by_cases h : k % M + 1 = M
  · rw [if_pos h, h, Nat.mod_self]
  · rw [if_neg h]
    exact Nat.mod_eq_of_lt (by have := Nat.mod_lt k hM; omega)

theorem devAfter_spec (n : Nat) :
    devAfter n =
      { session := 0,
        transaction_id := if n = 0 then 0 else (n - 1) % 0xFFFFFFFE + 1 } := by
  induction n with
  | zero => rfl
  | succ n ih =>
    rw [devAfter, ih]
    simp only [transactionGet]
    rcases Nat.eq_zero_or_pos n with hn | hn
    · subst hn; rfl
    · have hpos : ¬ (n + 1 = 0) := by omega
      have hn0 : ¬ (n = 0) := by omega
      simp only [if_neg hpos, if_neg hn0, Nat.add_sub_cancel]
      have hmod : (n - 1) % 0xFFFFFFFE < 0xFFFFFFFE :=
        Nat.mod_lt _ (by norm_num)
      have hsucc := succ_mod_spec (n - 1) 0xFFFFFFFE (by norm_num)
      have hn1 : n - 1 + 1 = n := by omega
      rw [hn1] at hsucc
      by_cases h : (n - 1) % 0xFFFFFFFE + 1 = 0xFFFFFFFE
      · have hgt : (n - 1) % 0xFFFFFFFE + 1 + 1 > 0xFFFFFFFE := by omega
        rw [if_pos hgt, hsucc, if_pos h]
      · have hle : ¬ ((n - 1) % 0xFFFFFFFE + 1 + 1 > 0xFFFFFFFE) := by omega
        rw [if_neg hle, hsucc, if_neg h]

/-- C1: from a fresh device, the `__transaction` getter returns the current
counter value at each call, and the sequence of returned values is
`0, 1, 2, ..., 0xFFFFFFFE, 1, 2, ...`: the first call returns 0, and the
`n`-th later call returns `(n-1) % 0xFFFFFFFE + 1`, so after returning
`0xFFFFFFFE` the next value is 1 and 0 is never returned again (absent an
explicit reset). -/
theorem transaction_id_sequence :
    (∀ s : DevState, (transactionGet s).1 = s.transaction_id) ∧
    ∀ n : Nat,
      nthTransaction n = if n = 0 then 0 else (n - 1) % 0xFFFFFFFE + 1 := by
  constructor
  · intro s; rfl
  · intro n
    show (transactionGet (devAfter n)).1 = _
    rw [devAfter_spec]
    rfl

/-- C2: when `open_session` succeeds, `session` runs the body after it and
executes `close_session` exactly once on every exit path, with the body's
outcome (value or exception) propagating unchanged when `close_session`
succeeds. -/
theorem session_scoped_cleanup :
    ∀ (E A : Type) (body : Except E A) (closeR : Except E Unit),
      ((sessionRun (Except.ok ()) body closeR).2.count Call.closeCall = 1) ∧
      sessionRun (Except.ok ()) body (Except.ok ()) =
        (body, [Call.openCall, Call.bodyCall, Call.closeCall]) := by
  intro E A body closeR
  refine ⟨?_, ?_⟩
  · cases body <;> cases closeR <;> rfl
  · cases body <;> rfl

/-- C9: if `open_session` itself raises, `session` still executes
`close_session` (the `finally` clause of the generator) before the
exception propagates; the body never runs. -/
theorem session_cleanup_on_open_failure :
    ∀ (E A : Type) (e : E) (body : Except E A),
      sessionRun (Except.error e) body (Except.ok ()) =
        (Except.error e, [Call.openCall, Call.closeCall]) := by
  intro E A e body
  rfl

/-- C3: from any state, `open_session` increments the session counter to
`S = session + 1`, and hands the transport's `mesg` an Operation container
with code `OpenSession`, `SessionID = 0`, `TransactionID = 0` and
`Parameter = [S, 0, 0, 0, 0]`; the transport's response is returned
unmodified (the transaction counter ends up at 1 after the reset and the
one getter read). -/
theorem open_session_spec :
    ∀ (R : Type) (mesg : Frame → R) (s : DevState),
      open_session mesg s =
        some (mesg { code := CodeValue.sym "OpenSession",
                     SessionID := 0,
                     TransactionID := 0,
                     Parameter := [s.session + 1, 0, 0, 0, 0] },
              { session := s.session + 1, transaction_id := 1 }) := by
  intro R mesg s
  rfl

/-- C10: assigning any value to the `session_id` property is silently
ignored: the state is unchanged, no error is raised (the setter is total),
and reading `session_id` still yields the internal session counter. -/
theorem session_id_assignment_ignored :
    ∀ (s : DevState) (v : Nat),
      session_id_set s v = s ∧
      session_id_get (session_id_set s v) = s.session := by
  intro s v
  exact ⟨rfl, rfl⟩

/-!
Code tables: the keyword tables passed to construct's `Enum` by
`OperationCode`, `ResponseCode`, `EventCode`, `PropertyCode` and
`ObjectFormatCode` (base tables, no vendor entries).  `Enum` keeps two
dict views: name-to-value for build and value-to-name (later duplicate
wins) for parse, both with `_default_=Pass`.
-/

def OperationCodeTable : List (String × Nat) :=
  [("Undefined", 0x1000),
   ("GetDeviceInfo", 0x1001),
   ("OpenSession", 0x1002),
   ("CloseSession", 0x1003),
   ("GetStorageIDs", 0x1004),
   ("GetStorageInfo", 0x1005),
   ("GetNumObjects", 0x1006),
   ("GetObjectHandles", 0x1007),
   ("GetObjectInfo", 0x1008),
   ("GetObject", 0x1009),
   ("GetThumb", 0x100A),
   ("DeleteObject", 0x100B),
   ("SendObjectInfo", 0x100C),
   ("SendObject", 0x100D),
   ("InitiateCapture", 0x100E),
   ("FormatStore", 0x100F),
   ("ResetDevice", 0x1010),
   ("SelfTest", 0x1011),
   ("SetObjectProtection", 0x1012),
   ("PowerDown", 0x1013),
   ("GetDevicePropDesc", 0x1014),
   ("GetDevicePropValue", 0x1015),
   ("SetDevicePropValue", 0x1016),
   ("ResetDevicePropValue", 0x1017),
   ("TerminateOpenCapture", 0x1018),
   ("MoveObject", 0x1019),
   ("CopyObject", 0x101A),
   ("GetPartialObject", 0x101B),
   ("InitiateOpenCapture", 0x101C),
   ("StartEnumHandles", 0x101D),
   ("EnumHandles", 0x101E),
   ("StopEnumHandles", 0x101F),
   ("GetVendorExtensionMapss", 0x1020),
   ("GetVendorDeviceInfo", 0x1021),
   ("GetResizedImageObject", 0x1022),
   ("GetFilesystemManifest", 0x1023),
   ("GetStreamInfo", 0x1024),
   ("GetStream", 0x1025)]

def ResponseCodeTable : List (String × Nat) :=
  [("Undefined", 0x2000),
   ("OK", 0x2001),
   ("GeneralError", 0x2002),
   ("SessionNotOpen", 0x2003),
   ("InvalidTransactionID", 0x2004),
   ("OperationNotSupported", 0x2005),
   ("ParameterNotSupported", 0x2006),
   ("IncompleteTransfer", 0x2007),
   ("InvalidStorageId", 0x2008),
   ("InvalidObjectHandle", 0x2009),
   ("DevicePropNotSupported", 0x200A),
   ("InvalidObjectFormatCode", 0x200B),
   ("StoreFull", 0x200C),
   ("ObjectWriteProtected", 0x200D),
   ("StoreReadOnly", 0x200E),
   ("AccessDenied", 0x200F),
   ("NoThumbnailPresent", 0x2010),
   ("SelfTestFailed", 0x2011),
   ("PartialDeletion", 0x2012),
   ("StoreNotAvailable", 0x2013),
   ("SpecificationByFormatUnsupported", 0x2014),
   ("NoValidObjectInfo", 0x2015),
   ("InvalidCodeFormat", 0x2016),
   ("UnknownVendorCode", 0x2017),
   ("CaptureAlreadyTerminated", 0x2018),
   ("DeviceBusy", 0x2019),
   ("InvalidParentObject", 0x201A),
   ("InvalidDevicePropFormat", 0x201B),
   ("InvalidDevicePropValue", 0x201C),
   ("InvalidParameter", 0x201D),
   ("SessionAlreadyOpened", 0x201E),
   ("TransactionCanceled", 0x201F),
   ("SpecificationOfDestinationUnsupported", 0x2020),
   ("InvalidEnumHandle", 0x2021),
   ("NoStreamEnabled", 0x2022),
   ("InvalidDataset", 0x2023)]

def EventCodeTable : List (String × Nat) :=
  [("Undefined", 0x4000),
   ("CancelTransaction", 0x4001),
   ("ObjectAdded", 0x4002),
   ("ObjectRemoved", 0x4003),
   ("StoreAdded", 0x4004),
   ("StoreRemoved", 0x4005),
   ("DevicePropChanged", 0x4006),
   ("ObjectInfoChanged", 0x4007),
   ("DeviceInfoChanged", 0x4008),
   ("RequestObjectTransfer", 0x4009),
   ("StoreFull", 0x400A),
   ("DeviceReset", 0x400B),
   ("StorageInfoChanged", 0x400C),
   ("CaptureComplete", 0x400D),
   ("UnreportedStatus", 0x400E)]

def PropertyCodeTable : List (String × Nat) :=
  [("Undefined", 0x5000),
   ("BatteryLevel", 0x5001),
   ("FunctionalMode", 0x5002),
   ("ImageSize", 0x5003),
   ("CompressionSetting", 0x5004),
   ("WhiteBalance", 0x5005),
   ("RGBGain", 0x5006),
   ("FNumber", 0x5007),
   ("FocalLength", 0x5008),
   ("FocusDistance", 0x5009),
   ("FocusMode", 0x500A),
   ("ExposureMeteringMode", 0x500B),
   ("FlashMode", 0x500C),
   ("ExposureTime", 0x500D),
   ("ExposureProgramMode", 0x500E),
   ("ExposureIndex", 0x500F),
   ("ExposureBiasCompensation", 0x5010),
   ("DateTime", 0x5011),
   ("CaptureDelay", 0x5012),
   ("StillCaptureMode", 0x5013),
   ("Contrast", 0x5014),
   ("Sharpness", 0x5015),
   ("DigitalZoom", 0x5016),
   ("EffectMode", 0x5017),
   ("BurstNumber", 0x5018),
   ("BurstInterval", 0x5019),
   ("TimelapseNumber", 0x501A),
   ("TimelapseInterval", 0x501B),
   ("FocusMeteringMode", 0x501C),
   ("UploadURL", 0x501D),
   ("Artist", 0x501E),
   ("CopyrightInfo", 0x501F)]

def ObjectFormatCodeTable : List (String × Nat) :=
  [("Undefined", 0x3000),
   ("Association", 0x3001),
   ("Script", 0x3002),
   ("Executable", 0x3003),
   ("Text", 0x3004),
   ("HTML", 0x3005),
   ("DPOF", 0x3006),
   ("AIFF", 0x3007),
   ("WAV", 0x3008),
   ("MP3", 0x3009),
   ("AVI", 0x300A),
   ("MPEG", 0x300B),
   ("ASF", 0x300C),
   ("QT", 0x300D),
   ("EXIF_JPEG", 0x3801),
   ("TIFF_EP", 0x3802),
   ("FlashPix", 0x3803),
   ("BMP", 0x3804),
   ("CIFF", 0x3805),
   ("GIF", 0x3807),
   ("JFIF", 0x3808),
   ("PCD", 0x3809),
   ("PICT", 0x380A),
   ("PNG", 0x380B),
   ("TIFF", 0x380D),
   ("TIFF_IT", 0x380E),
   ("JP2", 0x380F),
   ("JPX", 0x3810),
   ("DNG", 0x3811)]

/-- The value-to-name view `dict((v, k) for k, v in mapping.items())`:
with duplicate values the later entry wins, hence the reversed search. -/
def lookupByValue (table : List (String × Nat)) (n : Nat) : Option String :=
  (table.reverse.find? (fun p => p.2 == n)).map Prod.fst

/-- `MappingAdapter._decode` with `decdefault = Pass`: an unmapped numeric
code passes through unchanged, so parsing never fails here. -/
def enumDecode (table : List (String × Nat)) (n : Nat) : CodeValue :=
  match lookupByValue table n with
  | some s => CodeValue.sym s
  | none => CodeValue.num n

/-- `MappingAdapter._encode` with `encdefault = Pass`: a known name maps to
its code; an unknown name passes through as the raw string, which the
16-bit integer subcon then fails to pack (modelled as `none`); a raw
number passes through to the integer subcon. -/
def enumEncode (table : List (String × Nat)) : CodeValue → Option Nat
  | CodeValue.sym s => table.lookup s
  | CodeValue.num n => some n

/-- C5: for each of the five code tables, parsing a numeric code with no
table entry never fails and yields the raw number passed through, while
building from a symbolic name with no table entry fails. -/
theorem code_table_miss_behavior :
    ∀ (n : Nat) (s : String),
      (lookupByValue OperationCodeTable n = none →
        enumDecode OperationCodeTable n = CodeValue.num n) ∧
      (OperationCodeTable.lookup s = none →
        enumEncode OperationCodeTable (CodeValue.sym s) = none) ∧
      (lookupByValue ResponseCodeTable n = none →
        enumDecode ResponseCodeTable n = CodeValue.num n) ∧
      (ResponseCodeTable.lookup s = none →
        enumEncode ResponseCodeTable (CodeValue.sym s) = none) ∧
      (lookupByValue EventCodeTable n = none →
        enumDecode EventCodeTable n = CodeValue.num n) ∧
      (EventCodeTable.lookup s = none →
        enumEncode EventCodeTable (CodeValue.sym s) = none) ∧
      (lookupByValue PropertyCodeTable n = none →
        enumDecode PropertyCodeTable n = CodeValue.num n) ∧
      (PropertyCodeTable.lookup s = none →
        enumEncode PropertyCodeTable (CodeValue.sym s) = none) ∧
      (lookupByValue ObjectFormatCodeTable n = none →
        enumDecode ObjectFormatCodeTable n = CodeValue.num n) ∧
      (ObjectFormatCodeTable.lookup s = none →
        enumEncode ObjectFormatCodeTable (CodeValue.sym s) = none) := by
  intro n s
  refine ⟨?_, ?_, ?_, ?_, ?_, ?_, ?_, ?_, ?_, ?_⟩ <;>
    intro h <;> simp [enumDecode, enumEncode, h]

/-- Witness for C5 at the concrete unknown code `0x19FF` and the unknown
name `Bogus`. -/
theorem code_table_miss_behavior_witness :
    enumDecode OperationCodeTable 0x19FF = CodeValue.num 0x19FF ∧
    enumEncode OperationCodeTable (CodeValue.sym "Bogus") = none ∧
    enumDecode ObjectFormatCodeTable 0x19FF = CodeValue.num 0x19FF := by
  refine ⟨?_, ?_, ?_⟩
  · exact (code_table_miss_behavior 0x19FF "Bogus").1 (by decide)
  · exact (code_table_miss_behavior 0x19FF "Bogus").2.1 (by decide)
  · exact (code_table_miss_behavior 0x19FF "Bogus").2.2.2.2.2.2.2.2.1 (by decide)

/-!
The `Parameter` field is `BitField('Parameter', 32, swapped=...)`, i.e.
`BitIntegerAdapter` over a 32-byte `Field`: outside of a `BitStruct` it
occupies 32 bytes on the wire, one byte per bit (`int_to_bin` /
`bin_to_int` of construct's `lib.binary`), with `swapped=True` reversing
the four 8-byte groups (`swap_bytes`).
-/

/-- `int_to_bin(number, width)`: the low `width` bits of `number` as a
most-significant-first list of bit flags (higher bits are discarded). -/
def intToBin : Nat → Nat → List Nat
  | 0, _ => []
  | w + 1, n => intToBin w (n / 2) ++ [n % 2]

/-- `bin_to_int(bits)` (unsigned): a byte counts as a set bit exactly when
it equals 1. -/
def binToInt (bits : List Nat) : Nat :=
  bits.foldl (fun number b => 2 * number + (if b == 1 then 1 else 0)) 0

/-- `swap_bytes(bits, bytesize=8)`: reverse the order of the 8-element
groups of the list. -/
def swapBytes : List Nat → List Nat
  | [] => []
  | b :: rest => swapBytes ((b :: rest).drop 8) ++ (b :: rest).take 8
termination_by l => l.length
decreasing_by
  simp only [List.length_drop, List.length_cons]
  omega

/-- `BitIntegerAdapter._encode` for width 32: bit flags, swapped into
little-endian group order when `swapped` is set.  Building never fails for
a natural number (oversized values are silently truncated to 32 bits). -/
def paramBuild (sw : Bool) (n : Nat) : List Nat :=
  if sw then swapBytes (intToBin 32 n) else intToBin 32 n

/-- Parse of the `Parameter` field: a 32-byte `Field` read followed by
`BitIntegerAdapter._decode` (unswap, then `bin_to_int`). -/
def paramParse (sw : Bool) (bs : List Nat) : Option (Nat × List Nat) :=
  if 32 ≤ bs.length then
    let raw := bs.take 32
    some (binToInt (if sw then swapBytes raw else raw), bs.drop 32)
  else none

theorem intToBin_length (w n : Nat) : (intToBin w n).length = w := by
  induction w generalizing n with
  | zero => rfl
  | succ w ih => simp [intToBin, ih]

theorem binToInt_intToBin (w n : Nat) (h : n < 2 ^ w) :
    binToInt (intToBin w n) = n := by
  induction w generalizing n with
  | zero =>
    have : n = 0 := by simpa using h
    subst this; rfl
  | succ w ih =>
    have hlt : n / 2 < 2 ^ w := by
      have := Nat.pow_succ 2 w
      omega
    have hrec := ih (n / 2) hlt
    unfold intToBin binToInt
    rw [List.foldl_append]
    show 2 * binToInt (intToBin w (n / 2)) + _ = n
    rw [hrec]
    rcases Nat.mod_two_eq_zero_or_one n with hm | hm <;> rw [hm] <;>
      simp <;> omega

theorem swapBytes_length (l : List Nat) : (swapBytes l).length = l.length := by
  induction l using swapBytes.induct with
  | case1 => simp [swapBytes]
  | case2 b rest ih =>
    rw [swapBytes]
    simp only [List.length_append, ih, List.length_drop, List.length_take,
      List.length_cons]
    omega

theorem swapBytes_append (l a : List Nat) (ha : a.length = 8) :
    8 ∣ l.length → swapBytes (l ++ a) = a ++ swapBytes l := by
  induction l using swapBytes.induct with
  | case1 =>
    intro _
    rcases a with _ | ⟨b, rest⟩
    · simp at ha
    · have h0 : swapBytes ([] : List Nat) = [] := by rw [swapBytes]
      rw [List.nil_append, h0, List.append_nil]
      have hd : (b :: rest).drop 8 = [] := List.drop_eq_nil_of_le (by omega)
      have ht : (b :: rest).take 8 = b :: rest :=
        List.take_of_length_le (by omega)
      rw [swapBytes, hd, ht, h0, List.nil_append]
  | case2 b rest ih =>
    intro hl
    have hlen8 : 8 ≤ (b :: rest).length := by
      rcases hl with ⟨k, hk⟩
      match k, hk with
      | 0, hk => simp at hk
      | k + 1, hk => omega
    rw [swapBytes]
    have hd : (b :: (rest ++ a)).drop 8 = (b :: rest).drop 8 ++ a := by
      have h : ((b :: rest) ++ a).drop 8 = (b :: rest).drop 8 ++ a :=
        List.drop_append_of_le_length hlen8
      simpa using h
    have ht : (b :: (rest ++ a)).take 8 = (b :: rest).take 8 := by
      have h : ((b :: rest) ++ a).take 8 = (b :: rest).take 8 :=
        List.take_append_of_le_length hlen8
      simpa using h
    have hdvd : 8 ∣ ((b :: rest).drop 8).length := by
      rw [List.length_drop]
      rcases hl with ⟨k, hk⟩
      exact ⟨k - 1, by omega⟩
    rw [List.cons_append]
    conv_lhs => rw [swapBytes]
    rw [hd, ht, ih hdvd, List.append_assoc]

theorem swapBytes_swapBytes (l : List Nat) (hl : 8 ∣ l.length) :
    swapBytes (swapBytes l) = l := by
  induction l using swapBytes.induct with
  | case1 => rw [swapBytes, swapBytes]
  | case2 b rest ih =>
    have hlen8 : 8 ≤ (b :: rest).length := by
      rcases hl with ⟨k, hk⟩
      match k, hk with
      | 0, hk => simp at hk
      | k + 1, hk => omega
    have hdvd : 8 ∣ ((b :: rest).drop 8).length := by
      rw [List.length_drop]
      rcases hl with ⟨k, hk⟩
      exact ⟨k - 1, by omega⟩
    have ht8 : ((b :: rest).take 8).length = 8 := by
      rw [List.length_take]
      omega
    have hsw : 8 ∣ (swapBytes ((b :: rest).drop 8)).length := by
      rw [swapBytes_length]; exact hdvd
    rw [swapBytes, swapBytes_append _ _ ht8 hsw, ih hdvd,
      List.take_append_drop]

theorem paramParse_paramBuild (sw : Bool) (n : Nat) (h : n < 4294967296)
    (r : List Nat) : paramParse sw (paramBuild sw n ++ r) = some (n, r) := by
  have hlen : (paramBuild sw n).length = 32 := by
    cases sw <;> simp [paramBuild, swapBytes_length, intToBin_length]
  have htake : (paramBuild sw n ++ r).take 32 = paramBuild sw n := by
    conv_lhs => rw [← hlen]
    exact List.take_left _ _
  have hdrop : (paramBuild sw n ++ r).drop 32 = r := by
    conv_lhs => rw [← hlen]
    exact List.drop_left _ _
  have hrt : binToInt (intToBin 32 n) = n :=
    binToInt_intToBin 32 n (by norm_num; omega)
  have hlenge : 32 ≤ (paramBuild sw n ++ r).length := by
    rw [List.length_append, hlen]; omega
  rw [paramParse, if_pos hlenge, htake, hdrop]
  cases sw with
  | false =>
    show some (binToInt (intToBin 32 n), r) = some (n, r)
    rw [hrt]
  | true =>
    show some (binToInt (swapBytes (swapBytes (intToBin 32 n))), r) = some (n, r)
    rw [swapBytes_swapBytes _ (by rw [intToBin_length]; exact ⟨4, rfl⟩), hrt]

/-- Parse of `Array(count, Parameter(...))`: `count` successive
`Parameter` reads. -/
def paramsParse (sw : Bool) : Nat → List Nat → Option (List Nat × List Nat)
  | 0, bs => some ([], bs)
  | c + 1, bs =>
    match paramParse sw bs with
    | none => none
    | some (p, r) =>
      match paramsParse sw c r with
      | none => none
      | some (ps, r2) => some (p :: ps, r2)

theorem paramsParse_build (sw : Bool) (ps : List Nat)
    (h : ∀ p ∈ ps, p < 4294967296) (r : List Nat) :
    paramsParse sw ps.length ((ps.map (paramBuild sw)).flatten ++ r) =
      some (ps, r) := by
  induction ps generalizing r with
  | nil => simp [paramsParse]
  | cons p ps ih =>
    have hp : p < 4294967296 := h p (List.mem_cons_self p ps)
    have hps : ∀ q ∈ ps, q < 4294967296 := fun q hq => h q (List.mem_cons_of_mem p hq)
    rw [List.length_cons, List.map_cons, List.flatten_cons, List.append_assoc]
    rw [paramsParse, paramParse_paramBuild sw p hp]
    show (match paramsParse sw ps.length ((ps.map (paramBuild sw)).flatten ++ r) with
      | none => none
      | some (ps2, r2) => some (p :: ps2, r2)) = some (p :: ps, r)
    rw [ih hps]

theorem parseU16_encodeU16 (e : Endian) (n : Nat) (h : n < 65536)
    (r : List Nat) :
    (encodeU16 e n).bind (fun bs => parseU16 e (bs ++ r)) = some (n, r) := by
  rw [encodeU16, if_pos h]
  cases e with
  | little =>
    show some (n % 256 + 256 * (n / 256), r) = some (n, r)
    have hx : n % 256 + 256 * (n / 256) = n := by omega
    rw [hx]
  | big =>
    show some (256 * (n / 256) + n % 256, r) = some (n, r)
    have hx : 256 * (n / 256) + n % 256 = n := by omega
    rw [hx]

theorem parseU32_encodeU32 (e : Endian) (n : Nat) (h : n < 4294967296)
    (r : List Nat) :
    (encodeU32 e n).bind (fun bs => parseU32 e (bs ++ r)) = some (n, r) := by
  rw [encodeU32, if_pos h]
  cases e with
  | little =>
    show some (n % 256 + 256 * (n / 256 % 256) + 65536 * (n / 65536 % 256) +
      16777216 * (n / 16777216), r) = some (n, r)
    have hx : n % 256 + 256 * (n / 256 % 256) + 65536 * (n / 65536 % 256) +
        16777216 * (n / 16777216) = n := by omega
    rw [hx]
  | big =>
    show some (16777216 * (n / 16777216) + 65536 * (n / 65536 % 256) +
      256 * (n / 256 % 256) + n % 256, r) = some (n, r)
    have hx : 16777216 * (n / 16777216) + 65536 * (n / 65536 % 256) +
        256 * (n / 256 % 256) + n % 256 = n := by omega
    rw [hx]

theorem find_by_value_eq (l : List (String × Nat))
    (hnd : (l.map Prod.snd).Nodup) (s : String) (n : Nat)
    (hmem : (s, n) ∈ l) : l.find? (fun p => p.2 == n) = some (s, n) := by
  induction l with
  | nil => cases hmem
  | cons a l ih =>
    rw [List.map_cons, List.nodup_cons] at hnd
    rw [List.find?_cons]
    by_cases hv : (a.2 == n) = true
    · rw [hv]
      have han : a.2 = n := by simpa using hv
      rcases List.mem_cons.mp hmem with heq | htail
      · rw [heq]
      · exfalso
        apply hnd.1
        rw [han]
        exact List.mem_map_of_mem Prod.snd htail
    · rw [Bool.not_eq_true] at hv
      rw [hv]
      rcases List.mem_cons.mp hmem with heq | htail
      · exfalso
        have han : a.2 = n := by rw [← heq]
        simp [han] at hv
      · exact ih hnd.2 htail

theorem lookupByValue_of_mem (l : List (String × Nat))
    (hnd : (l.map Prod.snd).Nodup) (s : String) (n : Nat)
    (hmem : (s, n) ∈ l) : lookupByValue l n = some s := by
  have hmemr : (s, n) ∈ l.reverse := List.mem_reverse.mpr hmem
  have hndr : (l.reverse.map Prod.snd).Nodup := by
    rw [List.map_reverse]
    exact List.nodup_reverse.mpr hnd
  rw [lookupByValue, find_by_value_eq l.reverse hndr s n hmemr]
  rfl

theorem mem_of_lookup_eq_some (l : List (String × Nat)) (s : String) (n : Nat)
    (h : l.lookup s = some n) : (s, n) ∈ l := by
  induction l with
  | nil => simp [List.lookup] at h
  | cons a l ih =>
    obtain ⟨k, v⟩ := a
    rw [List.lookup_cons] at h
    by_cases hk : (s == k) = true
    · rw [hk] at h
      have hsk : s = k := by simpa using hk
      have hvn : v = n := by simpa using h
      exact List.mem_cons.mpr (Or.inl (by rw [hsk, hvn]))
    · rw [Bool.not_eq_true] at hk
      rw [hk] at h
      exact List.mem_cons.mpr (Or.inr (ih h))

theorem encodeU16_eq_some (e : Endian) (n : Nat) (h : n < 65536) :
    encodeU16 e n = some (u16Bytes e n) := by
  rw [encodeU16, if_pos h]

theorem encodeU32_eq_some (e : Endian) (n : Nat) (h : n < 4294967296) :
    encodeU32 e n = some (u32Bytes e n) := by
  rw [encodeU32, if_pos h]

theorem parseU16_bytes (e : Endian) (n : Nat) (h : n < 65536) (r : List Nat) :
    parseU16 e (u16Bytes e n ++ r) = some (n, r) := by
  have hb := parseU16_encodeU16 e n h r
  rw [encodeU16_eq_some e n h] at hb
  exact hb

theorem parseU32_bytes (e : Endian) (n : Nat) (h : n < 4294967296)
    (r : List Nat) : parseU32 e (u32Bytes e n ++ r) = some (n, r) := by
  have hb := parseU32_encodeU32 e n h r
  rw [encodeU32_eq_some e n h] at hb
  exact hb

/-- A code value is in parse-image (canonical) form for a table: a name the
table knows, or a 16-bit number the table does not map. -/
def codeCanonical (table : List (String × Nat)) : CodeValue → Bool
  | CodeValue.sym s => (table.lookup s).isSome
  | CodeValue.num n => decide (n < 65536) && (lookupByValue table n).isNone

/-- Well-formed frame value for a given code table and fixed parameter
count: canonical code, 32-bit session and transaction ids, and exactly
`count` 32-bit parameters. -/
def WellFormedFrame (table : List (String × Nat)) (count : Nat)
    (f : Frame) : Prop :=
  codeCanonical table f.code = true ∧ f.SessionID < 4294967296 ∧
  f.TransactionID < 4294967296 ∧ f.Parameter.length = count ∧
  ∀ p ∈ f.Parameter, p < 4294967296

/-- `Struct._build` for the three frame kinds: code field (`Enum` over a
16-bit integer), `SessionID` and `TransactionID` (32-bit integers), then
`Array(count, Parameter)`, whose `MetaArray._build` raises unless exactly
`count` parameters are supplied. -/
def frameBuild (table : List (String × Nat)) (count : Nat) (e : Endian)
    (sw : Bool) (f : Frame) : Option (List Nat) :=
  (enumEncode table f.code).bind fun c =>
    (encodeU16 e c).bind fun codeBytes =>
      (encodeU32 e f.SessionID).bind fun sessBytes =>
        (encodeU32 e f.TransactionID).bind fun transBytes =>
          if f.Parameter.length = count then
            some (codeBytes ++ (sessBytes ++ (transBytes ++
              (f.Parameter.map (paramBuild sw)).flatten)))
          else none

/-- `Struct._parse` for the three frame kinds (trailing bytes are
ignored, as construct parses from a stream). -/
def frameParse (table : List (String × Nat)) (count : Nat) (e : Endian)
    (sw : Bool) (bs : List Nat) : Option Frame :=
  (parseU16 e bs).bind fun cr =>
    (parseU32 e cr.2).bind fun sr =>
      (parseU32 e sr.2).bind fun tr =>
        (paramsParse sw count tr.2).bind fun pr =>
          some { code := enumDecode table cr.1, SessionID := sr.1,
                 TransactionID := tr.1, Parameter := pr.1 }

/-- `Operation(...)`: OperationCode header and 5 parameters. -/
def Operation_build (e : Endian) (sw : Bool) : Frame → Option (List Nat) :=
  frameBuild OperationCodeTable 5 e sw

def Operation_parse (e : Endian) (sw : Bool) : List Nat → Option Frame :=
  frameParse OperationCodeTable 5 e sw

/-- `Response(...)`: ResponseCode header and 5 parameters. -/
def Response_build (e : Endian) (sw : Bool) : Frame → Option (List Nat) :=
  frameBuild ResponseCodeTable 5 e sw

def Response_parse (e : Endian) (sw : Bool) : List Nat → Option Frame :=
  frameParse ResponseCodeTable 5 e sw

/-- `Event(...)`: EventCode header and 3 parameters. -/
def Event_build (e : Endian) (sw : Bool) : Frame → Option (List Nat) :=
  frameBuild EventCodeTable 3 e sw

def Event_parse (e : Endian) (sw : Bool) : List Nat → Option Frame :=
  frameParse EventCodeTable 3 e sw

theorem frameParse_frameBuild (table : List (String × Nat)) (count : Nat)
    (e : Endian) (sw : Bool) (f : Frame)
    (hvals : ∀ p ∈ table, p.2 < 65536)
    (hnd : (table.map Prod.snd).Nodup)
    (hwf : WellFormedFrame table count f) :
    (frameBuild table count e sw f).bind (frameParse table count e sw) =
      some f := by
  obtain ⟨hcode, hsid, htid, hlen, hparams⟩ := hwf
  obtain ⟨c, hc_enc, hc_lt, hc_dec⟩ :
      ∃ c, enumEncode table f.code = some c ∧ c < 65536 ∧
        enumDecode table c = f.code := by
    cases hfc : f.code with
    | sym s =>
      rw [hfc] at hcode
      have hsome : (table.lookup s).isSome = true := by
        simpa [codeCanonical] using hcode
      obtain ⟨n, hn⟩ := Option.isSome_iff_exists.mp hsome
      have hmem : (s, n) ∈ table := mem_of_lookup_eq_some table s n hn
      refine ⟨n, ?_, hvals _ hmem, ?_⟩
      · simpa [enumEncode] using hn
      · rw [enumDecode, lookupByValue_of_mem table hnd s n hmem]
    | num n =>
      rw [hfc] at hcode
      have hcc : n < 65536 ∧ (lookupByValue table n).isNone = true := by
        simpa [codeCanonical] using hcode
      refine ⟨n, rfl, hcc.1, ?_⟩
      rw [enumDecode, Option.isNone_iff_eq_none.mp hcc.2]
  have hpp := paramsParse_build sw f.Parameter hparams []
  rw [List.append_nil] at hpp
  rw [frameBuild, hc_enc]
  simp only [Option.some_bind, encodeU16_eq_some e c hc_lt,
    encodeU32_eq_some e f.SessionID hsid, encodeU32_eq_some e f.TransactionID htid,
    if_pos hlen]
  simp only [frameParse, parseU16_bytes e c hc_lt, Option.some_bind,
    parseU32_bytes e f.SessionID hsid, parseU32_bytes e f.TransactionID htid,
    ← hlen, hpp, hc_dec]

theorem OperationCodeTable_vals_lt : ∀ p ∈ OperationCodeTable, p.2 < 65536 := by
  decide

theorem OperationCodeTable_nodup : (OperationCodeTable.map Prod.snd).Nodup := by
  decide

theorem ResponseCodeTable_vals_lt : ∀ p ∈ ResponseCodeTable, p.2 < 65536 := by
  decide

theorem ResponseCodeTable_nodup : (ResponseCodeTable.map Prod.snd).Nodup := by
  decide

theorem EventCodeTable_vals_lt : ∀ p ∈ EventCodeTable, p.2 < 65536 := by
  decide

theorem EventCodeTable_nodup : (EventCodeTable.map Prod.snd).Nodup := by
  decide

/-- C4: for every well-formed frame value of each frame kind (canonical
code value, 32-bit ids, exact fixed parameter count) and every
constructible endianness selection, parsing the built bytes returns the
original frame. -/
theorem frame_codecs_roundtrip :
    ∀ (e : Endian) (sw : Bool) (f g h : Frame),
      (WellFormedFrame OperationCodeTable 5 f →
        (Operation_build e sw f).bind (Operation_parse e sw) = some f) ∧
      (WellFormedFrame ResponseCodeTable 5 g →
        (Response_build e sw g).bind (Response_parse e sw) = some g) ∧
      (WellFormedFrame EventCodeTable 3 h →
        (Event_build e sw h).bind (Event_parse e sw) = some h) := by
  intro e sw f g h
  exact ⟨fun hw => frameParse_frameBuild OperationCodeTable 5 e sw f
      OperationCodeTable_vals_lt OperationCodeTable_nodup hw,
    fun hw => frameParse_frameBuild ResponseCodeTable 5 e sw g
      ResponseCodeTable_vals_lt ResponseCodeTable_nodup hw,
    fun hw => frameParse_frameBuild EventCodeTable 3 e sw h
      EventCodeTable_vals_lt EventCodeTable_nodup hw⟩

def opFrameW : Frame :=
  { code := CodeValue.sym "OpenSession", SessionID := 0, TransactionID := 0,
    Parameter := [1, 0, 0, 0, 0] }

def respFrameW : Frame :=
  { code := CodeValue.sym "OK", SessionID := 1, TransactionID := 2,
    Parameter := [0, 0, 0, 0, 0] }

def evFrameW : Frame :=
  { code := CodeValue.num 0x19FF, SessionID := 1, TransactionID := 3,
    Parameter := [7, 8, 9] }

/-- Witness for C4 at concrete frames of each kind. -/
theorem frame_codecs_roundtrip_witness :
    (Operation_build Endian.big false opFrameW).bind
      (Operation_parse Endian.big false) = some opFrameW ∧
    (Response_build Endian.little true respFrameW).bind
      (Response_parse Endian.little true) = some respFrameW ∧
    (Event_build Endian.big true evFrameW).bind
      (Event_parse Endian.big true) = some evFrameW :=
  ⟨(frame_codecs_roundtrip Endian.big false opFrameW respFrameW evFrameW).1
      (by unfold WellFormedFrame; decide),
   (frame_codecs_roundtrip Endian.little true opFrameW respFrameW evFrameW).2.1
      (by unfold WellFormedFrame; decide),
   (frame_codecs_roundtrip Endian.big true opFrameW respFrameW evFrameW).2.2
      (by unfold WellFormedFrame; decide)⟩

theorem frameBuild_none_of_length (table : List (String × Nat)) (count : Nat)
    (e : Endian) (sw : Bool) (f : Frame)
    (h : f.Parameter.length ≠ count) :
    frameBuild table count e sw f = none := by
  cases henc : enumEncode table f.code with
  | none => simp [frameBuild, henc]
  | some c =>
    cases h16 : encodeU16 e c with
    | none => simp [frameBuild, henc, h16]
    | some cb =>
      cases h32a : encodeU32 e f.SessionID with
      | none => simp [frameBuild, henc, h16, h32a]
      | some sb =>
        cases h32b : encodeU32 e f.TransactionID with
        | none => simp [frameBuild, henc, h16, h32a, h32b]
        | some tb => simp [frameBuild, henc, h16, h32a, h32b, h]

def opFrameShort : Frame :=
  { code := CodeValue.sym "OpenSession", SessionID := 0, TransactionID := 0,
    Parameter := [1, 0, 0, 0] }

/-- C6 counterexample: building an Operation frame that carries only 4 of
the 5 parameters raises (`MetaArray._build`: "expected 5, found 4") instead
of zero-padding, while the same frame with the explicit fifth zero
parameter builds fine. -/
theorem frame_param_padding_counterexample :
    Operation_build Endian.little true opFrameShort = none ∧
    (Operation_build Endian.little true
      { opFrameShort with Parameter := [1, 0, 0, 0, 0] }).isSome = true := by
  exact ⟨rfl, rfl⟩

/-- C6 (amended): the encoder never pads: building fails whenever the
supplied parameter list differs from the frame kind's fixed count
(5 for Operation and Response, 3 for Event), whether fewer or more. -/
theorem frame_param_count_strict :
    ∀ (e : Endian) (sw : Bool) (f : Frame),
      (f.Parameter.length ≠ 5 → Operation_build e sw f = none) ∧
      (f.Parameter.length ≠ 5 → Response_build e sw f = none) ∧
      (f.Parameter.length ≠ 3 → Event_build e sw f = none) := by
  intro e sw f
  exact ⟨fun h => frameBuild_none_of_length OperationCodeTable 5 e sw f h,
    fun h => frameBuild_none_of_length ResponseCodeTable 5 e sw f h,
    fun h => frameBuild_none_of_length EventCodeTable 3 e sw f h⟩

/-- Witness for the amended C6 at concrete too-short and too-long frames. -/
theorem frame_param_count_strict_witness :
    Operation_build Endian.little true opFrameShort = none ∧
    Event_build Endian.big false
      { opFrameShort with Parameter := [1, 2, 3, 4] } = none :=
  ⟨(frame_param_count_strict Endian.little true opFrameShort).1 (by decide),
   (frame_param_count_strict Endian.big false
      { opFrameShort with Parameter := [1, 2, 3, 4] }).2.2 (by decide)⟩

/-!
`PTPString` is construct's `PascalString(name, length_field=UNInt8(...),
encoding='utf16')`: the one-byte length prefix is `len(text.encode('utf16'))`
— a byte count over the encoded payload, which Python's `utf16` codec
prefixes with a byte-order mark in the platform's order.  Decode reads
that many bytes and decodes them with the `utf16` codec (BOM selects the
order and is stripped; without a BOM the platform's order is used).  The
text value is modelled at the UTF-16 code-unit level.

`PTPArray` is a `Struct` of a 32-bit length field (constructed without
endianness flags, hence platform order) and `Array(ctx.length, element)`,
whose build requires the supplied element list to match the `length`
field.  `DeviceInfo` likewise constructs its fixed integer fields as
`ULInt16`/`ULInt32` (little-endian regardless of the selection) and its
`PTPString`/`PTPArray` sub-codecs without endianness flags; only the four
array element codecs receive the `(_le_, _be_)` selection.
-/

/-- Byte-order mark written by Python's `utf16` codec, in platform order. -/
def bom : Endian → List Nat
  | .little => [255, 254]
  | .big => [254, 255]

/-- Pair up bytes into UTF-16 code units in the given order; an odd
trailing byte is a decode error (truncated data). -/
def utf16Units (e : Endian) : List Nat → Option (List Nat)
  | [] => some []
  | b0 :: b1 :: rest =>
    (utf16Units e rest).map (fun us =>
      (match e with | .little => b0 + 256 * b1 | .big => 256 * b0 + b1) :: us)
  | _ => none

/-- `bytes.decode('utf16')`: a leading BOM selects the byte order and is
consumed; otherwise the platform's native order is assumed. -/
def utf16DecodeBytes (native : Endian) (bs : List Nat) : Option (List Nat) :=
  match bs with
  | 255 :: 254 :: rest => utf16Units Endian.little rest
  | 254 :: 255 :: rest => utf16Units Endian.big rest
  | _ => utf16Units native bs

/-- `PTPString` build: `text.encode('utf16')` (BOM plus units in platform
order), length-prefixed with one byte, which must fit in 8 bits. -/
def ptpStringBuild (native : Endian) (units : List Nat) : Option (List Nat) :=
  if units.all (fun u => u < 65536) then
    let data := bom native ++ (units.map (u16Bytes native)).flatten
    if data.length < 256 then some (data.length :: data) else none
  else none

/-- `PTPString` parse: read the one-byte length prefix `n`, read `n` BYTES
of payload (failing when the stream is shorter), and utf16-decode them. -/
def ptpStringParse (native : Endian) (bs : List Nat) :
    Option (List Nat × List Nat) :=
  match bs with
  | [] => none
  | n :: rest =>
    if n ≤ rest.length then
      (utf16DecodeBytes native (rest.take n)).map fun us => (us, rest.drop n)
    else none

/-- Container value of a `PTPArray` sub-struct: explicit `length` field
plus the element list. -/
structure PTPArrayVal (α : Type) where
  length : Nat
  elems : List α

/-- `PTPArray` build: 32-bit length field in platform order, then
`Array(ctx.length, element)`, which requires exactly `length` elements. -/
def ptpArrayBuild {α : Type} (native : Endian)
    (elemBuild : α → Option (List Nat)) (v : PTPArrayVal α) :
    Option (List Nat) :=
  (encodeU32 native v.length).bind fun lenBytes =>
    if v.elems.length = v.length then
      (v.elems.mapM elemBuild).map fun bss => lenBytes ++ bss.flatten
    else none

/-- Build of one code-table element inside a `PTPArray` (`Enum` over a
16-bit integer with the endianness selection). -/
def codeFieldBuild (table : List (String × Nat)) (e : Endian)
    (c : CodeValue) : Option (List Nat) :=
  (enumEncode table c).bind (encodeU16 e)

/-- Container value of the `DeviceInfo` struct, fields in declared order. -/
structure DeviceInfoVal where
  StandardVersion : Nat
  VendorExtensionID : Nat
  VendorExtensionVersion : Nat
  VendorExtensionDesc : List Nat
  FunctionalMode : Nat
  OperationSupported : PTPArrayVal CodeValue
  EventsSupported : PTPArrayVal CodeValue
  DevicePropertiesSupported : PTPArrayVal CodeValue
  CaptureFormats : PTPArrayVal CodeValue
  Manufacturer : List Nat
  Model : List Nat
  DeviceVersion : List Nat
  SerialNumber : List Nat

/-- `DeviceInfo(...)` build, exactly as constructed in the source:
`StandardVersion`, `VendorExtensionID`, `VendorExtensionVersion` and
`FunctionalMode` are hardcoded `ULInt16`/`ULInt32` (little-endian whatever
the selection); the `PTPString` and `PTPArray` sub-codecs are constructed
without endianness flags (platform-order length prefixes); only the four
array element codecs receive the selection `e`. -/
def DeviceInfo_build (native e : Endian) (d : DeviceInfoVal) :
    Option (List Nat) :=
  (encodeU16 Endian.little d.StandardVersion).bind fun sv =>
  (encodeU32 Endian.little d.VendorExtensionID).bind fun veid =>
  (encodeU16 Endian.little d.VendorExtensionVersion).bind fun vev =>
  (ptpStringBuild native d.VendorExtensionDesc).bind fun ved =>
  (encodeU16 Endian.little d.FunctionalMode).bind fun fm =>
  (ptpArrayBuild native (codeFieldBuild OperationCodeTable e)
      d.OperationSupported).bind fun ops =>
  (ptpArrayBuild native (codeFieldBuild EventCodeTable e)
      d.EventsSupported).bind fun evs =>
  (ptpArrayBuild native (codeFieldBuild PropertyCodeTable e)
      d.DevicePropertiesSupported).bind fun props =>
  (ptpArrayBuild native (codeFieldBuild ObjectFormatCodeTable e)
      d.CaptureFormats).bind fun fmts =>
  (ptpStringBuild native d.Manufacturer).bind fun man =>
  (ptpStringBuild native d.Model).bind fun mdl =>
  (ptpStringBuild native d.DeviceVersion).bind fun dv =>
  (ptpStringBuild native d.SerialNumber).bind fun sn =>
  some (sv ++ veid ++ vev ++ ved ++ fm ++ ops ++ evs ++ props ++ fmts ++
    man ++ mdl ++ dv ++ sn)

def deviceInfoW : DeviceInfoVal :=
  { StandardVersion := 0x0102, VendorExtensionID := 0,
    VendorExtensionVersion := 0, VendorExtensionDesc := [],
    FunctionalMode := 0,
    OperationSupported := { length := 0, elems := [] },
    EventsSupported := { length := 0, elems := [] },
    DevicePropertiesSupported := { length := 0, elems := [] },
    CaptureFormats := { length := 0, elems := [] },
    Manufacturer := [], Model := [], DeviceVersion := [],
    SerialNumber := [] }

/-- C7 (refuting evidence): a `DeviceInfo` codec constructed with the
big-endian selection — even on a big-endian platform — still lays out
`StandardVersion = 0x0102` little-endian: the first two built bytes are
`[0x02, 0x01]`, not the big-endian `[0x01, 0x02]` the claim requires; the
fixed integer fields and the string/array length prefixes ignore the
endianness selected at construction. -/
theorem deviceinfo_ignores_endian_selection :
    (DeviceInfo_build Endian.big Endian.big deviceInfoW).map (List.take 2) =
      some [2, 1] := by
  rfl

/-- C8 (refuting evidence): `PTPString` parse treats the 8-bit length
prefix as a BYTE count over the encoded payload: with prefix 4 it consumes
exactly 4 bytes — two UTF-16 units, here "ab" — and leaves the fifth
payload byte unread, where the claim requires 4 UTF-16 units (8 bytes). -/
theorem ptpstring_length_counts_bytes :
    ptpStringParse Endian.little [4, 97, 0, 98, 0, 153] =
      some ([97, 98], [153]) := by
  rfl
